import Mathlib

/-!
Verification development for the paint-to-audio oscillator engine in
`src/Core/PaintEngine.cpp` (class `PaintEngine`).

The engine is shallowly embedded: the per-slot oscillator data, the
enhanced per-voice lifecycle state, the free list, the double-buffered
oscillator pools and the per-sample render loop are translated into plain
Lean definitions.  `float` quantities that only ever flow through
assignments, comparisons and linear arithmetic (envelope values,
timestamps) are modelled as `ℚ`; quantities that flow through the
transcendental library calls of the source (`std::exp`, `std::log`,
`std::sin`, `std::sqrt`) are modelled as `ℝ`.

The class declaration header `PaintEngine.h` is not part of the source
tree; members that are declared there and only used in
`PaintEngine.cpp` (the `EnhancedOscillatorState` helpers, the pool size
constant, the influence radius, the canvas region size) are modelled
from the specification and carry a doc comment saying so.
-/

namespace PaintEngine

/-- `juce::jlimit (lowerLimit, upperLimit, value)` on real values:
`value < lower ? lower : upper < value ? upper : value`. -/
noncomputable def jlimitR (lo hi v : ℝ) : ℝ :=
  if v < lo then lo else if hi < v then hi else v

/-- The largest finite `float`, `FLT_MAX = 2^128 - 2^104`, used by
`findBestOscillatorForReplacement` as the initial "oldest time"
accumulator (`std::numeric_limits<float>::max()`). -/
def floatMax : ℚ := 2 ^ 128 - 2 ^ 104

/-- Modelled from the spec: `INFLUENCE_RADIUS` is declared in the missing
header `PaintEngine.h`; the spec fixes the Gaussian falloff formula but
not the radius value, so a concrete positive value is fixed here. -/
noncomputable def INFLUENCE_RADIUS : ℝ := 25

/-- Modelled from the spec: the default argument of
`Oscillator::smoothParameters` lives in the missing header; any positive
smoothing factor realises the spec's "parameter smoothing". -/
noncomputable def defaultSmoothingFactor : ℝ := 1 / 1000

/-- Modelled from the spec: per-second attack rate of the per-voice
envelope (`EnhancedOscillatorState::updateEnvelope` is declared in the
missing header; §4.3 of the spec prescribes an attack ramp toward 1
scaled by the sample rate). -/
def ENVELOPE_ATTACK_RATE : ℚ := 50

/-- Modelled from the spec: per-second release decay rate of the
per-voice envelope (§4.3 of the spec prescribes a release decay toward 0
scaled by the sample rate). -/
def ENVELOPE_RELEASE_RATE : ℚ := 50

/-- Modelled from the spec: the reclaim epsilon terminating the Release
phase ("force-cleared below a small epsilon threshold (e.g. 1e-3)"). -/
def ENVELOPE_EPSILON : ℚ := 1 / 1000

/-- Modelled from the spec: `CanvasRegion::REGION_SIZE` (a "fixed square
size") is declared in the missing header; a concrete positive value is
fixed here. -/
noncomputable def REGION_SIZE : ℝ := 10

/-- The envelope phase of `EnhancedOscillatorState` (spec §3:
`enum {Attack, Sustain, Release, Inactive}`). -/
inductive EnvPhase where
  | attack
  | sustain
  | release
  | inactive
deriving DecidableEq

/-- Modelled from the spec: `EnhancedOscillatorState`, the per-voice
lifecycle metadata declared in the missing header (spec §3): envelope
phase and value, pending target parameters, last-used timestamp and the
`inUse` flag.  Defaults are the silent/free slot. -/
structure OscState where
  envelopePhase : EnvPhase := EnvPhase.inactive
  envelopeValue : ℚ := 0
  targetFrequency : ℝ := 440
  targetAmplitude : ℝ := 0
  targetPan : ℝ := 1 / 2
  lastUsedTime : ℚ := 0
  inUse : Bool := false

/-- `EnhancedOscillatorState::isActive()`: spec §4.3 defines it as
"envelope phase is Attack/Sustain/Release, i.e. not Inactive". -/
def OscState.isActive (st : OscState) : Bool :=
  match st.envelopePhase with
  | EnvPhase.inactive => false
  | _ => true

/-- Modelled from the spec: `EnhancedOscillatorState::activate()` marks
the slot in use and starts the envelope at Attack (spec §4.1,
`activateOscillator`).  The current envelope value is kept (spec §4.3
demands a ramp with no discontinuity). -/
def OscState.activate (st : OscState) : OscState :=
  { st with envelopePhase := EnvPhase.attack, inUse := true }

/-- Modelled from the spec: `EnhancedOscillatorState::release()`
transitions the envelope to the Release phase (spec §4.1,
`releaseOscillator`). -/
def OscState.releasePhase (st : OscState) : OscState :=
  { st with envelopePhase := EnvPhase.release }

/-- Modelled from the spec: `EnhancedOscillatorState::updateEnvelope`
(spec §4.3): Attack ramps toward 1 and hands over to Sustain; Release
decays toward 0 and is force-cleared to Inactive below
`ENVELOPE_EPSILON`; Sustain and Inactive hold. -/
def OscState.updateEnvelope (st : OscState) (sampleRate : ℚ) : OscState :=
  match st.envelopePhase with
  | EnvPhase.attack =>
      let v := st.envelopeValue + ENVELOPE_ATTACK_RATE / sampleRate
      if 1 ≤ v then { st with envelopePhase := EnvPhase.sustain, envelopeValue := 1 }
      else { st with envelopeValue := v }
  | EnvPhase.sustain => st
  | EnvPhase.release =>
      let v := st.envelopeValue - ENVELOPE_RELEASE_RATE / sampleRate
      if v ≤ ENVELOPE_EPSILON then
        { st with envelopePhase := EnvPhase.inactive, envelopeValue := 0 }
      else { st with envelopeValue := v }
  | EnvPhase.inactive => st

/-- `PaintEngine::AudioParams` (frequency, amplitude, pan, time). -/
structure AudioParams where
  frequency : ℝ := 440
  amplitude : ℝ := 0
  pan : ℝ := 1 / 2
  time : ℝ := 0

/-- `PaintEngine::Point`: a 2D canvas coordinate. -/
structure Point where
  x : ℝ
  y : ℝ

/-- `PaintEngine::StrokePoint`: position, pressure and colour; the only
colour channels read by `PaintEngine.cpp` are "is transparent black" and
the hue (`strokePointToAudioParams`, lines 443-451), so the colour is
modelled by those two. -/
structure StrokePoint where
  position : Point
  pressure : ℝ
  colorIsTransparentBlack : Bool := false
  colorHue : ℝ := 0

/-- One oscillator slot (`PaintEngine::Oscillator`).  Defaults model the
default-constructed member state of the missing header: a silent slot. -/
structure Oscillator where
  frequency : ℝ := 440
  amplitude : ℝ := 0
  targetAmplitude : ℝ := 0
  pan : ℝ := 1 / 2
  targetPan : ℝ := 1 / 2
  phase : ℝ := 0
  phaseIncrement : ℝ := 0

/-- `Oscillator::setParameters` (PaintEngine.cpp lines 487-492):
frequency is taken raw, amplitude and pan are clamped to [0,1]. -/
noncomputable def Oscillator.setParameters (o : Oscillator) (p : AudioParams) : Oscillator :=
  { o with frequency := p.frequency,
           targetAmplitude := jlimitR 0 1 p.amplitude,
           targetPan := jlimitR 0 1 p.pan }

/-- `Oscillator::updatePhase` (lines 494-502): the increment is
`frequency / sampleRate`; the phase is advanced and wrapped to [0,1). -/
noncomputable def Oscillator.updatePhase (o : Oscillator) (sampleRate : ℝ) : Oscillator :=
  let inc := o.frequency / sampleRate
  let p := o.phase + inc
  { o with phaseIncrement := inc,
           phase := if 1 ≤ p then p - (⌊p⌋ : ℝ) else p }

/-- `Oscillator::getSample` (lines 504-507): a sine of the normalised
phase scaled by the smoothed amplitude. -/
noncomputable def Oscillator.getSample (o : Oscillator) : ℝ :=
  Real.sin (o.phase * (2 * Real.pi)) * o.amplitude

/-- `Oscillator::smoothParameters` (lines 509-519): amplitude moves
toward its target at twice the base factor, pan at the base factor. -/
noncomputable def Oscillator.smoothParameters (o : Oscillator) (f : ℝ) : Oscillator :=
  { o with amplitude := o.amplitude + (o.targetAmplitude - o.amplitude) * (f * 2),
           pan := o.pan + (o.targetPan - o.pan) * (f * 1) }

/-- Modelled from the spec: `Oscillator::reset()` is declared in the
missing header; spec §3 says slots are "reset to defaults on
release/reuse". -/
noncomputable def Oscillator.resetOsc (_ : Oscillator) : Oscillator := {}

/-- Modelled from the spec: `Oscillator::isActive()` is declared in the
missing header; an oscillator still contributing sound has a positive
current or target amplitude (used only by `optimizeOscillatorPool`). -/
noncomputable def Oscillator.isActiveOsc (o : Oscillator) : Bool :=
  if 0 < o.amplitude ∨ 0 < o.targetAmplitude then true else false

/-- Modelled from the spec: the `juce::SmoothedValue` master gain is
framework code, not part of this repository; it is modelled as a linear
per-sample ramp with a stored ramp length. -/
structure SmoothedFloat where
  current : ℝ := 0
  target : ℝ := 0
  stepSize : ℝ := 0
  countdown : ℕ := 0
  rampSteps : ℕ := 0

/-- `masterGain.reset(sampleRate, 0.01)` followed by
`setCurrentAndTargetValue(0.7)` as performed by `prepareToPlay`
(lines 46-47). -/
noncomputable def SmoothedFloat.prepared (sampleRate : ℚ) : SmoothedFloat :=
  { current := 7 / 10, target := 7 / 10, stepSize := 0, countdown := 0,
    rampSteps := (⌊sampleRate / 100⌋).toNat }

/-- One `getNextValue()` step of the smoothed master gain. -/
def SmoothedFloat.getNextValue (g : SmoothedFloat) : ℝ × SmoothedFloat :=
  match g.countdown with
  | 0 => (g.target, { g with current := g.target })
  | Nat.succ k =>
      let c := g.current + g.stepSize
      (c, { g with current := c, countdown := k })

/-- `PaintEngine::Stroke`, reduced to the data the specified operations
observe: its id, its points and the finalisation flag. -/
structure Stroke where
  strokeId : ℕ
  points : List StrokePoint := []
  isFinalized : Bool := false

/-- `PaintEngine::CanvasRegion`: integer grid coordinates and the ids of
the strokes stored in the region. -/
structure CanvasRegion where
  regionX : ℤ
  regionY : ℤ
  strokeIds : List ℕ := []


/-- The engine state of `PaintEngine` as observed by the specified
operations.  `n` is the pool size `MAX_OSCILLATORS` (declared in the
missing header; the code is written against it symbolically, so it is a
state component here).  The two oscillator pools are indexed by a
`Bool`; the code keeps `frontBufferIndex` and `backBufferIndex` in two
atomics that are always exchanged together and hence always
complementary, which the model captures by deriving the back index as
the negation of the front index. -/
@[ext]
structure PEState where
  n : ℕ
  pools : Bool → ℕ → Oscillator
  states : ℕ → OscState
  freeList : List ℕ
  frontIndex : Bool := false
  swapPending : Bool := false
  activeOscillators : ℕ := 0
  blockCounter : ℕ := 0
  isActiveFlag : Bool := true
  usePanning : Bool := true
  sampleRate : ℚ := 44100
  samplesPerBlock : ℤ := 512
  masterGain : SmoothedFloat := {}
  minFrequency : ℝ := 20
  maxFrequency : ℝ := 20000
  canvasLeft : ℝ := -100
  canvasRight : ℝ := 100
  canvasBottom : ℝ := -50
  canvasTop : ℝ := 50
  useLogFrequencyScale : Bool := true
  playheadPosition : ℝ := 0
  currentStroke : Option Stroke := none
  canvasRegions : List (ℤ × CanvasRegion) := []
  nextStrokeId : ℕ := 1

/-- `getFrontBuffer()`: the pool currently read by the audio thread. -/
def getFrontBuffer (s : PEState) : ℕ → Oscillator := s.pools s.frontIndex

/-- `getBackBuffer()`: the pool currently written by the GUI thread. -/
def getBackBuffer (s : PEState) : ℕ → Oscillator := s.pools (!s.frontIndex)

/-- `PaintEngine::setFrequencyRange` (lines 305-309). -/
noncomputable def setFrequencyRange (s : PEState) (minHz maxHz : ℝ) : PEState :=
  let mn := jlimitR 1 20000 minHz
  { s with minFrequency := mn, maxFrequency := jlimitR (mn + 1) 22000 maxHz }

/-- `PaintEngine::PaintEngine()` (lines 8-33): all slots default, all
indices pushed onto the free list in ascending order, frequency range
20 Hz..20 kHz, canvas region x in [-100,100], y in [-50,50].  The
defaults for the flags declared only in the missing header
(`useLogFrequencyScale`, `usePanning`, `isActive`) are modelled from the
spec ("logarithmic by default"; panning and the engine enabled). -/
noncomputable def initState (n : ℕ) : PEState :=
  setFrequencyRange
    { n := n
      pools := fun _ _ => {}
      states := fun _ => {}
      freeList := List.range n } 20 20000

/-- `PaintEngine::canvasYToFrequency` (lines 314-332). -/
noncomputable def canvasYToFrequency (s : PEState) (y : ℝ) : ℝ :=
  let normalizedY := (y - s.canvasBottom) / (s.canvasTop - s.canvasBottom)
  let clampedY := jlimitR 0 1 normalizedY
  if s.useLogFrequencyScale then
    Real.exp (Real.log s.minFrequency +
      clampedY * (Real.log s.maxFrequency - Real.log s.minFrequency))
  else
    s.minFrequency + clampedY * (s.maxFrequency - s.minFrequency)

/-- `PaintEngine::frequencyToCanvasY` (lines 334-352). -/
noncomputable def frequencyToCanvasY (s : PEState) (frequency : ℝ) : ℝ :=
  let clampedFreq := jlimitR s.minFrequency s.maxFrequency frequency
  let normalizedY :=
    if s.useLogFrequencyScale then
      (Real.log clampedFreq - Real.log s.minFrequency) /
        (Real.log s.maxFrequency - Real.log s.minFrequency)
    else
      (clampedFreq - s.minFrequency) / (s.maxFrequency - s.minFrequency)
  s.canvasBottom + normalizedY * (s.canvasTop - s.canvasBottom)

/-- `PaintEngine::canvasXToTime` (lines 354-359). -/
noncomputable def canvasXToTime (s : PEState) (x : ℝ) : ℝ :=
  jlimitR 0 1 ((x - s.canvasLeft) / (s.canvasRight - s.canvasLeft))

/-- `PaintEngine::strokePointToAudioParams` (lines 435-454). -/
noncomputable def strokePointToAudioParams (s : PEState) (point : StrokePoint) : AudioParams :=
  { frequency := canvasYToFrequency s point.position.y
    amplitude := point.pressure
    time := canvasXToTime s point.position.x
    pan := if point.colorIsTransparentBlack then 1 / 2 else point.colorHue }

/-- The scan loop of `findBestOscillatorForReplacement` (lines 677-694):
a slot in Release or Inactive phase wins immediately; otherwise the
first index strictly improving the running minimum `lastUsedTime` is
kept. -/
def findBestLoop (states : ℕ → OscState) :
    List ℕ → ℤ → ℚ → ℤ
  | [], oldestIndex, _ => oldestIndex
  | i :: rest, oldestIndex, oldestTime =>
      if (states i).envelopePhase = EnvPhase.release ∨
         (states i).envelopePhase = EnvPhase.inactive then (i : ℤ)
      else if (states i).lastUsedTime < oldestTime then
        findBestLoop states rest (i : ℤ) (states i).lastUsedTime
      else
        findBestLoop states rest oldestIndex oldestTime

/-- `PaintEngine::findBestOscillatorForReplacement` (lines 672-697). -/
def findBestOscillatorForReplacement (s : PEState) : ℤ :=
  findBestLoop s.states (List.range s.n) (-1) floatMax

/-- `PaintEngine::allocateOscillator` (lines 658-670): pop the back of
the free list if non-empty, otherwise fall back to the replacement
scan (which does not touch the free list). -/
def allocateOscillator (s : PEState) : ℤ × PEState :=
  match s.freeList.getLast? with
  | some index => ((index : ℤ), { s with freeList := s.freeList.dropLast })
  | none => (findBestOscillatorForReplacement s, s)

/-- `PaintEngine::activateOscillator` (lines 699-717): guarded by the
index range; `state.activate()` plus raw target assignments (no
clamping), timestamped, and `setParameters` on the back-buffer slot.
`now` stands for `juce::Time::getMillisecondCounterHiRes()`. -/
noncomputable def activateOscillator (s : PEState) (index : ℤ) (params : AudioParams)
    (now : ℚ) : PEState :=
  if index < 0 ∨ (s.n : ℤ) ≤ index then s else
  let i := index.toNat
  let st := (s.states i).activate
  let st1 := { st with targetFrequency := params.frequency,
                       targetAmplitude := params.amplitude,
                       targetPan := params.pan,
                       lastUsedTime := now }
  { s with states := Function.update s.states i st1,
           pools := Function.update s.pools (!s.frontIndex)
             (Function.update (getBackBuffer s) i
               ((getBackBuffer s i).setParameters params)) }

/-- `PaintEngine::releaseOscillator` (lines 719-728): guarded by the
index range; transitions the envelope to Release and nothing else
("Don't immediately return to free pool - let envelope finish"). -/
def releaseOscillator (s : PEState) (index : ℤ) : PEState :=
  if index < 0 ∨ (s.n : ℤ) ≤ index then s else
  { s with states :=
      Function.update s.states index.toNat (s.states index.toNat).releasePhase }

/-- `PaintEngine::calculateDistance` (lines 765-778): the oscillator's Y
is estimated by inverse-mapping its target frequency; `dx` is taken as
`position.x` itself ("Assume oscillator is at time=0 for simplicity"). -/
noncomputable def calculateDistance (s : PEState) (oscillatorIndex : ℕ)
    (position : Point) : ℝ :=
  let oscY := frequencyToCanvasY s (s.states oscillatorIndex).targetFrequency
  let dx := position.x
  let dy := position.y - oscY
  Real.sqrt (dx * dx + dy * dy)

/-- `PaintEngine::calculateInfluence` (lines 780-787): Gaussian falloff
scaled by pressure, clamped to [0,1]. -/
noncomputable def calculateInfluence (_s : PEState) (distance pressure : ℝ) : ℝ :=
  let normalizedDistance := distance / INFLUENCE_RADIUS
  jlimitR 0 1 (pressure * Real.exp (-(normalizedDistance * normalizedDistance)))

/-- `PaintEngine::updateOscillatorWithInfluence` (lines 730-763). -/
noncomputable def updateOscillatorWithInfluence (s : PEState) (oscillatorIndex : ℤ)
    (newPoint : StrokePoint) (params : AudioParams) (now : ℚ) : PEState :=
  if oscillatorIndex < 0 ∨ (s.n : ℤ) ≤ oscillatorIndex then s else
  let i := oscillatorIndex.toNat
  let st := s.states i
  if st.isActive = false then s else
  let distance := calculateDistance s i newPoint.position
  let influence := calculateInfluence s distance newPoint.pressure
  if influence < 1 / 100 then s else
  let tf := jlimitR 20 20000 (st.targetFrequency * (1 - influence) + params.frequency * influence)
  let ta := jlimitR 0 1 (st.targetAmplitude * (1 - influence) + params.amplitude * influence)
  let tp := jlimitR 0 1 (st.targetPan * (1 - influence) + params.pan * influence)
  let st1 := { st with targetFrequency := tf, targetAmplitude := ta,
                       targetPan := tp, lastUsedTime := now }
  { s with states := Function.update s.states i st1,
           pools := Function.update s.pools (!s.frontIndex)
             (Function.update (getBackBuffer s) i
               ((getBackBuffer s i).setParameters
                 { frequency := tf, amplitude := ta, pan := tp })) }

/-- `swapBuffersIfPending` (lines 817-837): executed at the start of a
block; if a swap is pending the two buffer roles are exchanged and the
flag cleared. -/
def swapBuffersIfPending (s : PEState) : PEState :=
  if s.swapPending then
    { s with frontIndex := !s.frontIndex, swapPending := false }
  else s

/-- `requestBufferSwap` (lines 839-852): a compare-exchange from `false`
to `true` on the pending flag; a second request while one is pending is
skipped. -/
def requestBufferSwap (s : PEState) : PEState :=
  if s.swapPending then s else { s with swapPending := true }

/-- `updateCanvasOscillators` (lines 370-392): walks the current stroke
and the stored regions, but `Stroke::updateOscillators` (lines 542-548)
and hence `CanvasRegion::updateOscillators` (lines 607-616) leave the
oscillator pool untouched, so the pass is the identity on the state. -/
def updateCanvasOscillators (s : PEState) : PEState := s

/-- The compaction loop of `optimizeOscillatorPool` (lines 466-479) over
the back buffer: active slots are moved down to the compact index, the
vacated slots reset. -/
noncomputable def compactLoop :
    List ℕ → (ℕ → Oscillator) → ℕ → (ℕ → Oscillator)
  | [], pool, _ => pool
  | i :: rest, pool, compactIndex =>
      if (pool i).isActiveOsc then
        if compactIndex ≠ i then
          compactLoop rest
            (Function.update (Function.update pool compactIndex (pool i)) i
              (Oscillator.resetOsc (pool i))) (compactIndex + 1)
        else compactLoop rest pool (compactIndex + 1)
      else compactLoop rest pool compactIndex

/-- `PaintEngine::optimizeOscillatorPool` (lines 461-482): compacts the
back buffer and requests a swap. -/
noncomputable def optimizeOscillatorPool (s : PEState) : PEState :=
  let compacted := compactLoop (List.range s.n) (getBackBuffer s) 0
  requestBufferSwap { s with pools := Function.update s.pools (!s.frontIndex) compacted }

/-- The running accumulator of one sample iteration of the render loop
of `processBlock` (lines 91-160): the front pool and enhanced states
being mutated in place, the free list, the two mix buses and the count
of active oscillators seen this sample. -/
structure SampleAcc where
  pool : ℕ → Oscillator
  states : ℕ → OscState
  freeList : List ℕ
  leftSample : ℝ
  rightSample : ℝ
  activeCount : ℕ

/-- The body of the inner per-oscillator loop of `processBlock`
(lines 99-144) for slot `i`: an active slot advances its envelope,
smooths its parameters, renders one enveloped sample into the mix buses
(with the hard-coded `panValue = 0.5f` of line 121), advances its phase
and refreshes its timestamp; an inactive slot still flagged in use is
reclaimed onto the free list. -/
noncomputable def slotStep (sampleRate now : ℚ) (panning stereo : Bool)
    (acc : SampleAcc) (i : ℕ) : SampleAcc :=
  let oscState := acc.states i
  let osc := acc.pool i
  if oscState.isActive then
    let oscState1 := oscState.updateEnvelope sampleRate
    let osc1 := osc.smoothParameters defaultSmoothingFactor
    let envelopedSample := osc1.getSample * (oscState1.envelopeValue : ℝ)
    let acc1 :=
      if panning && stereo then
        let panValue : ℝ := 1 / 2
        { acc with leftSample := acc.leftSample + envelopedSample * (1 - panValue),
                   rightSample := acc.rightSample + envelopedSample * panValue }
      else
        { acc with leftSample := acc.leftSample + envelopedSample }
    let osc2 := osc1.updatePhase (sampleRate : ℝ)
    { acc1 with pool := Function.update acc1.pool i osc2,
                states := Function.update acc1.states i
                  { oscState1 with lastUsedTime := now },
                activeCount := acc1.activeCount + 1 }
  else if oscState.envelopePhase = EnvPhase.inactive ∧ oscState.inUse then
    { acc with states := Function.update acc.states i { oscState with inUse := false },
               freeList := acc.freeList ++ [i] }
  else acc

/-- One full per-sample pass over all `n` slots (the loop of line 99). -/
noncomputable def samplePass (n : ℕ) (sampleRate now : ℚ) (panning stereo : Bool)
    (pool : ℕ → Oscillator) (states : ℕ → OscState) (freeList : List ℕ) : SampleAcc :=
  (List.range n).foldl (slotStep sampleRate now panning stereo)
    { pool := pool, states := states, freeList := freeList,
      leftSample := 0, rightSample := 0, activeCount := 0 }

/-- The accumulator of the outer per-sample loop of `processBlock`: the
data of `SampleAcc` threaded across samples plus the master gain state,
the published active-oscillator count and the rendered output (in
reverse order of production). -/
structure BlockAcc where
  pool : ℕ → Oscillator
  states : ℕ → OscState
  freeList : List ℕ
  gain : SmoothedFloat
  activeOscillators : ℕ
  outRev : List (ℝ × ℝ)

/-- One outer iteration of the sample loop (lines 91-160): a full slot
pass, then the master gain applied to both buses (the right channel
copies the left when panning is disabled, line 152) and the
active-oscillator count published at sample 0 (lines 156-159). -/
noncomputable def sampleIter (n : ℕ) (sampleRate now : ℚ) (panning stereo : Bool)
    (acc : BlockAcc) (sampleIndex : ℕ) : BlockAcc :=
  let sa := samplePass n sampleRate now panning stereo acc.pool acc.states acc.freeList
  let gainStep := acc.gain.getNextValue
  let leftOut := sa.leftSample * gainStep.1
  let rightOut :=
    if stereo then (if panning then sa.rightSample * gainStep.1 else leftOut) else 0
  { pool := sa.pool, states := sa.states, freeList := sa.freeList,
    gain := gainStep.2,
    activeOscillators := if sampleIndex = 0 then sa.activeCount else acc.activeOscillators,
    outRev := (leftOut, rightOut) :: acc.outRev }

/-- `PaintEngine::processBlock` (lines 62-174): silence if the engine is
inactive; otherwise a pending buffer swap is consumed, the canvas pass
runs, every sample is rendered through the front pool, and every 100th
block the pool is compacted.  Wall-clock metrics (`cpuLoad`) are
real-time measurements outside the embedded model.  `now` stands for
`juce::Time::getMillisecondCounterHiRes()`. -/
noncomputable def processBlock (s : PEState) (numSamples numChannels : ℕ)
    (now : ℚ) : PEState × List (ℝ × ℝ) :=
  if s.isActiveFlag = false then (s, List.replicate numSamples (0, 0)) else
  let s1 := updateCanvasOscillators (swapBuffersIfPending s)
  let stereo := decide (1 < numChannels)
  let accF := (List.range numSamples).foldl
    (sampleIter s1.n s1.sampleRate now s1.usePanning stereo)
    { pool := getFrontBuffer s1, states := s1.states, freeList := s1.freeList,
      gain := s1.masterGain, activeOscillators := s1.activeOscillators, outRev := [] }
  let s2 := { s1 with
              pools := Function.update s1.pools s1.frontIndex accF.pool,
              states := accF.states, freeList := accF.freeList,
              masterGain := accF.gain,
              activeOscillators := accF.activeOscillators,
              blockCounter := s1.blockCounter + 1 }
  let s3 := if (s1.blockCounter + 1) % 100 = 0 then optimizeOscillatorPool s2 else s2
  (s3, accF.outRev.reverse)

/-- `PaintEngine::prepareToPlay` (lines 40-60): stores the sample rate
and block size, re-initialises the master gain smoothing, resets both
oscillator pools to default oscillators and zeroes the published
active-oscillator count.  It touches neither `oscillatorStates` nor
`freeOscillatorIndices`. -/
noncomputable def prepareToPlay (s : PEState) (sr : ℚ) (samplesPerBlock : ℤ) : PEState :=
  { s with sampleRate := sr, samplesPerBlock := samplesPerBlock,
           masterGain := SmoothedFloat.prepared sr,
           pools := fun _ _ => {},
           activeOscillators := 0 }

/-- `PaintEngine::clearCanvas` (lines 272-292): drops the current stroke
and the regions, resets every oscillator of the back buffer, zeroes the
active count and requests a buffer swap. -/
noncomputable def clearCanvas (s : PEState) : PEState :=
  requestBufferSwap
    { s with currentStroke := none, canvasRegions := [],
             pools := Function.update s.pools (!s.frontIndex)
               (fun i => Oscillator.resetOsc (getBackBuffer s i)),
             activeOscillators := 0 }

/-- Reinterpret an integer as its unsigned 64-bit representative (the
effect of storing it in a `juce::int64` and viewing the bit pattern). -/
def toUInt64Bits (z : ℤ) : ℕ := (z % (2 : ℤ) ^ 64).toNat

/-- Reinterpret an unsigned 64-bit pattern as a signed two's-complement
value. -/
def ofUInt64Bits (u : ℕ) : ℤ :=
  if u < 2 ^ 63 then (u : ℤ) else (u : ℤ) - 2 ^ 64

/-- `PaintEngine::getRegionKey` (lines 394-397):
`(static_cast<juce::int64>(regionX) << 32) | static_cast<juce::int64>(regionY)`
on two's-complement 64-bit values: the sign-extended `regionY` is OR-ed
into the shifted `regionX`. -/
def getRegionKey (regionX regionY : ℤ) : ℤ :=
  ofUInt64Bits ((toUInt64Bits regionX <<< 32) % 2 ^ 64 ||| toUInt64Bits regionY)

/-- Association-list lookup standing for
`canvasRegions.find(key)` on the `std::map` keyed by `juce::int64`. -/
def lookupRegion : List (ℤ × CanvasRegion) → ℤ → Option CanvasRegion
  | [], _ => none
  | (k, r) :: rest, key => if k = key then some r else lookupRegion rest key

/-- `PaintEngine::getOrCreateRegion` (lines 399-417): floor-divide the
canvas position into grid coordinates, pack them into the 64-bit key,
and create the region only when the key is absent.  The returned key
identifies the map entry the caller receives. -/
noncomputable def getOrCreateRegion (s : PEState) (canvasX canvasY : ℝ) :
    ℤ × PEState :=
  let regionX : ℤ := ⌊canvasX / REGION_SIZE⌋
  let regionY : ℤ := ⌊canvasY / REGION_SIZE⌋
  let key := getRegionKey regionX regionY
  match lookupRegion s.canvasRegions key with
  | some _ => (key, s)
  | none =>
      (key, { s with canvasRegions :=
                (key, { regionX := regionX, regionY := regionY }) :: s.canvasRegions })

/-- The pool operations named by the free-list partition claim, at the
granularity at which `PaintEngine.cpp` invokes them:
`allocateOscillator` is always immediately followed by
`activateOscillator` on the index it returned
(`updateOscillatorsIncremental`, lines 631-639), `releaseOscillator` may
hit any index, and `processBlock` runs the per-sample render/reclaim
loop. -/
inductive PoolEv where
  | allocActivate (params : AudioParams) (now : ℚ)
  | releaseIdx (index : ℤ)
  | block (numSamples numChannels : ℕ) (now : ℚ)

/-- Apply one pool operation to the engine state. -/
noncomputable def applyEv (s : PEState) : PoolEv → PEState
  | PoolEv.allocActivate params now =>
      let r := allocateOscillator s
      if 0 ≤ r.1 then activateOscillator r.2 r.1 params now else r.2
  | PoolEv.releaseIdx index => releaseOscillator s index
  | PoolEv.block numSamples numChannels now =>
      (processBlock s numSamples numChannels now).1

/-- Run a sequence of pool operations from a start state. -/
noncomputable def runEvents (s : PEState) (evs : List PoolEv) : PEState :=
  evs.foldl applyEv s

/-- The free-list/in-use partition: every pool index below `n` is
counted exactly once between the free list and the in-use flags, and
the free list only holds pool indices. -/
def Partition (s : PEState) : Prop :=
  (∀ i < s.n, s.freeList.count i + (if (s.states i).inUse then 1 else 0) = 1) ∧
  (∀ j ∈ s.freeList, j < s.n)

/-- The partition property of the free-list claim, stated over the
components that the render-loop accumulators thread: every pool index
below `n` is counted exactly once between the free list and the in-use
flags, and the free list only holds pool indices. -/
def PartitionCore (n : ℕ) (states : ℕ → OscState) (freeList : List ℕ) : Prop :=
  (∀ i < n, freeList.count i + (if (states i).inUse then 1 else 0) = 1) ∧
  (∀ j ∈ freeList, j < n)

/-- The influence update prescribed by the specification text (spec
§4.1, `updateOscillatorWithInfluence`), written for comparison with the
source: the distance is measured from the point to the oscillator's
estimated canvas position, whose X the spec takes to be `canvasLeft`;
the blend weight is `pressure * exp(-(distance/INFLUENCE_RADIUS)^2)`;
below 0.01 the state is untouched, otherwise the three targets are
lerped by the weight and clamped. -/
def specInfluenceUpdate (s : PEState) (oscillatorIndex : ℕ)
    (newPoint : StrokePoint) (params : AudioParams) (s' : PEState) : Prop :=
  let oscY := frequencyToCanvasY s (s.states oscillatorIndex).targetFrequency
  let dx := newPoint.position.x - s.canvasLeft
  let dy := newPoint.position.y - oscY
  let distance := Real.sqrt (dx * dx + dy * dy)
  let influence := newPoint.pressure *
    Real.exp (-((distance / INFLUENCE_RADIUS) * (distance / INFLUENCE_RADIUS)))
  if influence < 1 / 100 then
    s' = s
  else
    (s'.states oscillatorIndex).targetFrequency =
      jlimitR 20 20000 ((s.states oscillatorIndex).targetFrequency * (1 - influence) +
        params.frequency * influence) ∧
    (s'.states oscillatorIndex).targetAmplitude =
      jlimitR 0 1 ((s.states oscillatorIndex).targetAmplitude * (1 - influence) +
        params.amplitude * influence) ∧
    (s'.states oscillatorIndex).targetPan =
      jlimitR 0 1 ((s.states oscillatorIndex).targetPan * (1 - influence) +
        params.pan * influence)

/-- Fixture for the reclaim-timing claim: a one-slot engine whose slot
is in Release with envelope value 1/2, still flagged in use, the free
list empty, at sample rate 100 (so one release step of rate 50 drops
the envelope to 0 and the phase to Inactive). -/
noncomputable def exampleReleasingState : PEState :=
  { n := 1
    pools := fun _ _ => {}
    states := fun _ =>
      { envelopePhase := EnvPhase.release, envelopeValue := 1 / 2, inUse := true }
    freeList := []
    sampleRate := 100 }

/-- Fixture: a one-slot sample accumulator whose slot is Inactive but
still flagged in use — the configuration the per-sample reclaim step
fires on. -/
noncomputable def exampleReclaimAcc : SampleAcc :=
  { pool := fun _ => {}
    states := fun _ => { envelopePhase := EnvPhase.inactive, inUse := true }
    freeList := []
    leftSample := 0
    rightSample := 0
    activeCount := 0 }

/-- Fixture for the prepare claim: a one-slot engine whose only slot has
been allocated (free list empty, slot in use, envelope in Attack). -/
noncomputable def exampleAllocatedState : PEState :=
  { n := 1
    pools := fun _ _ => {}
    states := fun _ =>
      { envelopePhase := EnvPhase.attack, envelopeValue := 1 / 2, inUse := true }
    freeList := [] }

/-- Fixture for the pan-law claim: a sample accumulator whose slot 0 is
an in-use Sustain voice with envelope 1 and an oscillator panned hard
right (`pan = targetPan = 1`), amplitude settled at 1, phase 1/4 (so the
raw sample is `sin (pi/2) = 1`). -/
noncomputable def examplePannedAcc : SampleAcc :=
  { pool := fun _ =>
      { amplitude := 1, targetAmplitude := 1, pan := 1, targetPan := 1, phase := 1 / 4 }
    states := fun _ =>
      { envelopePhase := EnvPhase.sustain, envelopeValue := 1, inUse := true }
    freeList := []
    leftSample := 0
    rightSample := 0
    activeCount := 0 }

/-- Fixture for the allocation-policy witness: a two-slot engine with
both indices free (the freshly constructed pool). -/
noncomputable def exampleFreshTwoSlot : PEState :=
  { n := 2
    pools := fun _ _ => {}
    states := fun _ => {}
    freeList := [0, 1] }

/-- Fixture for the frequency-range claim: a one-slot engine after
`setFrequencyRange (1, 22000)` — the widest range the setter admits. -/
noncomputable def exampleWideRangeState : PEState :=
  setFrequencyRange
    { n := 1
      pools := fun _ _ => {}
      states := fun _ => {}
      freeList := [0] } 1 22000

/-- Fixture for the influence claims: a one-slot engine with the default
frequency range and canvas, whose slot 0 is an active Sustain voice with
target frequency 20 Hz (so its estimated canvas position is the bottom
edge, Y = -50). -/
noncomputable def exampleInfluenceState : PEState :=
  { n := 1
    pools := fun _ _ => {}
    states := fun _ =>
      { envelopePhase := EnvPhase.sustain, envelopeValue := 1,
        targetFrequency := 20, inUse := true }
    freeList := [] }

/-- Fixture: the stroke point sitting exactly at the estimated canvas
position `(canvasLeft, -50)` of the oscillator of
`exampleInfluenceState`, painted with full pressure. -/
noncomputable def exampleInfluencePoint : StrokePoint :=
  { position := { x := -100, y := -50 }, pressure := 1 }

/-- Fixture: parameters asking the influenced oscillator to move to
20 kHz. -/
noncomputable def exampleInfluenceParams : AudioParams :=
  { frequency := 20000, amplitude := 1, pan := 1 / 2 }

/-- Fixture: a zero-pressure stroke point at the canvas origin, used to
witness the no-op branch of the influence update. -/
noncomputable def exampleZeroPressurePoint : StrokePoint :=
  { position := { x := 0, y := 0 }, pressure := 0 }

/-! ### Basic facts about the embedded operations -/

theorem updateEnvelope_inUse (st : OscState) (sr : ℚ) :
    (st.updateEnvelope sr).inUse = st.inUse := by
  unfold OscState.updateEnvelope
  cases h : st.envelopePhase <;> dsimp <;> split <;> rfl

theorem getLast?_eq_some_append {l : List ℕ} {k : ℕ} (h : l.getLast? = some k) :
    l = l.dropLast ++ [k] := by
  induction l with
  | nil => simp at h
  | cons a t ih =>
      cases t with
      | nil => simp_all
      | cons b t2 =>
          have h2 : (b :: t2).getLast? = some k := by
            simpa [List.getLast?] using h
          calc a :: b :: t2 = a :: ((b :: t2).dropLast ++ [k]) := by rw [← ih h2]
            _ = (a :: b :: t2).dropLast ++ [k] := by simp

theorem slotStep_shape (sr now : ℚ) (panning stereo : Bool) (acc : SampleAcc) (i : ℕ) :
    ((slotStep sr now panning stereo acc i).freeList = acc.freeList ∧
      ((slotStep sr now panning stereo acc i).states = acc.states ∨
        ∃ st', (slotStep sr now panning stereo acc i).states =
            Function.update acc.states i st' ∧ st'.inUse = (acc.states i).inUse))
    ∨ ((acc.states i).inUse = true ∧
        (slotStep sr now panning stereo acc i).freeList = acc.freeList ++ [i] ∧
        (slotStep sr now panning stereo acc i).states =
          Function.update acc.states i { acc.states i with inUse := false }) := by
  by_cases h1 : (acc.states i).isActive = true
  · left
    constructor
    · simp only [slotStep, h1, if_true]
      by_cases h2 : (panning && stereo) = true <;> simp [h2]
    · right
      refine ⟨{ (acc.states i).updateEnvelope sr with lastUsedTime := now }, ?_, ?_⟩
      · simp only [slotStep, h1, if_true]
        by_cases h2 : (panning && stereo) = true <;> simp [h2]
      · simpa using updateEnvelope_inUse (acc.states i) sr
  · by_cases h3 : (acc.states i).envelopePhase = EnvPhase.inactive ∧ (acc.states i).inUse = true
    · right
      refine ⟨h3.2, ?_, ?_⟩ <;> simp [slotStep, h1, h3]
    · left
      refine ⟨?_, Or.inl ?_⟩ <;> simp [slotStep, h1, h3]

theorem partitionCore_slotStep {n : ℕ} (sr now : ℚ) (panning stereo : Bool)
    {acc : SampleAcc} {i : ℕ} (hi : i < n)
    (h : PartitionCore n acc.states acc.freeList) :
    PartitionCore n (slotStep sr now panning stereo acc i).states
      (slotStep sr now panning stereo acc i).freeList := by
  rcases slotStep_shape sr now panning stereo acc i with
    ⟨hfl, hst | ⟨st', hst, hU⟩⟩ | ⟨hU, hfl, hst⟩
  · rw [hfl, hst]; exact h
  · rw [hfl, hst]
    refine ⟨fun j hj => ?_, h.2⟩
    by_cases hji : j = i
    · subst hji
      simpa [Function.update_same, hU] using h.1 j hj
    · simpa [Function.update_noteq hji] using h.1 j hj
  · rw [hfl, hst]
    constructor
    · intro j hj
      by_cases hji : j = i
      · subst hji
        have hc := h.1 j hj
        rw [hU] at hc
        simp only [if_true] at hc
        have hc0 : acc.freeList.count j = 0 := by omega
        simp [List.count_append, hc0, Function.update_same]
      · have hc := h.1 j hj
        have hc1 : List.count j [i] = 0 := by
          simp [List.count_eq_zero, hji]
        simp only [List.count_append, hc1, Function.update_noteq hji]
        omega
    · intro j hj
      rcases List.mem_append.mp hj with hj | hj
      · exact h.2 j hj
      · have : j = i := by simpa using hj
        subst this
        exact hi

theorem partitionCore_foldl_slots {n : ℕ} (sr now : ℚ) (panning stereo : Bool) :
    ∀ (l : List ℕ) (acc : SampleAcc), (∀ i ∈ l, i < n) →
      PartitionCore n acc.states acc.freeList →
      PartitionCore n ((l.foldl (slotStep sr now panning stereo) acc)).states
        ((l.foldl (slotStep sr now panning stereo) acc)).freeList := by
  intro l
  induction l with
  | nil => intro acc _ h; exact h
  | cons i t ih =>
      intro acc hmem h
      exact ih _ (fun j hj => hmem j (List.mem_cons_of_mem i hj))
        (partitionCore_slotStep sr now panning stereo (hmem i (List.mem_cons_self i t)) h)

theorem partitionCore_samplePass {n : ℕ} (sr now : ℚ) (panning stereo : Bool)
    (pool : ℕ → Oscillator) (states : ℕ → OscState) (fl : List ℕ)
    (h : PartitionCore n states fl) :
    PartitionCore n (samplePass n sr now panning stereo pool states fl).states
      (samplePass n sr now panning stereo pool states fl).freeList := by
  unfold samplePass
  exact partitionCore_foldl_slots sr now panning stereo (List.range n) _
    (fun i hi => List.mem_range.mp hi) h

theorem partitionCore_sampleIter {n : ℕ} (sr now : ℚ) (panning stereo : Bool)
    (acc : BlockAcc) (j : ℕ) (h : PartitionCore n acc.states acc.freeList) :
    PartitionCore n (sampleIter n sr now panning stereo acc j).states
      (sampleIter n sr now panning stereo acc j).freeList := by
  unfold sampleIter
  exact partitionCore_samplePass sr now panning stereo _ _ _ h

theorem partitionCore_foldl_samples {n : ℕ} (sr now : ℚ) (panning stereo : Bool) :
    ∀ (l : List ℕ) (acc : BlockAcc),
      PartitionCore n acc.states acc.freeList →
      PartitionCore n ((l.foldl (sampleIter n sr now panning stereo) acc)).states
        ((l.foldl (sampleIter n sr now panning stereo) acc)).freeList := by
  intro l
  induction l with
  | nil => intro acc h; exact h
  | cons j t ih =>
      intro acc h
      exact ih _ (partitionCore_sampleIter sr now panning stereo acc j h)

theorem requestBufferSwap_core (s : PEState) :
    (requestBufferSwap s).n = s.n ∧ (requestBufferSwap s).states = s.states ∧
      (requestBufferSwap s).freeList = s.freeList := by
  unfold requestBufferSwap
  split <;> exact ⟨rfl, rfl, rfl⟩

theorem optimizeOscillatorPool_core (s : PEState) :
    (optimizeOscillatorPool s).n = s.n ∧ (optimizeOscillatorPool s).states = s.states ∧
      (optimizeOscillatorPool s).freeList = s.freeList := by
  unfold optimizeOscillatorPool
  exact requestBufferSwap_core _

theorem swapBuffersIfPending_core (s : PEState) :
    (swapBuffersIfPending s).n = s.n ∧ (swapBuffersIfPending s).states = s.states ∧
      (swapBuffersIfPending s).freeList = s.freeList ∧
      (swapBuffersIfPending s).sampleRate = s.sampleRate := by
  unfold swapBuffersIfPending
  split <;> exact ⟨rfl, rfl, rfl, rfl⟩

theorem partition_requestBufferSwap (s : PEState) (h : Partition s) :
    Partition (requestBufferSwap s) := by
  unfold requestBufferSwap
  split
  · exact h
  · exact h

theorem partition_optimize (s : PEState) (h : Partition s) :
    Partition (optimizeOscillatorPool s) := by
  unfold optimizeOscillatorPool
  exact partition_requestBufferSwap _ h

theorem partition_processBlock (s : PEState) (numSamples numChannels : ℕ) (now : ℚ)
    (h : Partition s) : Partition (processBlock s numSamples numChannels now).1 := by
  unfold processBlock
  split
  · exact h
  · dsimp only
    have hcore : PartitionCore
        (updateCanvasOscillators (swapBuffersIfPending s)).n
        (updateCanvasOscillators (swapBuffersIfPending s)).states
        (updateCanvasOscillators (swapBuffersIfPending s)).freeList := by
      rcases swapBuffersIfPending_core s with ⟨h1, h2, h3, _⟩
      unfold updateCanvasOscillators
      rw [h1, h2, h3]
      exact h
    have hfold := @partitionCore_foldl_samples
      (updateCanvasOscillators (swapBuffersIfPending s)).n
      (updateCanvasOscillators (swapBuffersIfPending s)).sampleRate now
      (updateCanvasOscillators (swapBuffersIfPending s)).usePanning
      (decide (1 < numChannels)) (List.range numSamples)
      { pool := getFrontBuffer (updateCanvasOscillators (swapBuffersIfPending s))
        states := (updateCanvasOscillators (swapBuffersIfPending s)).states
        freeList := (updateCanvasOscillators (swapBuffersIfPending s)).freeList
        gain := (updateCanvasOscillators (swapBuffersIfPending s)).masterGain
        activeOscillators := (updateCanvasOscillators (swapBuffersIfPending s)).activeOscillators
        outRev := [] }
      hcore
    split
    · exact partition_optimize _ hfold
    · exact hfold

theorem releasePhase_inUse (st : OscState) : st.releasePhase.inUse = st.inUse := rfl

theorem partition_releaseOscillator (s : PEState) (index : ℤ) (h : Partition s) :
    Partition (releaseOscillator s index) := by
  unfold releaseOscillator
  split
  · exact h
  · constructor
    · intro i hi
      by_cases hii : i = index.toNat
      · subst hii
        simpa [Function.update_same, releasePhase_inUse] using h.1 _ hi
      · simpa [Function.update_noteq hii] using h.1 i hi
    · exact h.2

theorem partition_activate_of_mem (s : PEState) (k : ℕ) (params : AudioParams) (now : ℚ)
    (hk : k < s.n) (hcount : s.freeList.count k = 0)
    (hpart : ∀ i < s.n, i ≠ k → s.freeList.count i + (if (s.states i).inUse then 1 else 0) = 1)
    (hmem : ∀ j ∈ s.freeList, j < s.n) :
    Partition (activateOscillator s (k : ℤ) params now) := by
  unfold activateOscillator
  split
  · rename_i hguard
    exfalso
    rcases hguard with hneg | hge
    · omega
    · have : s.n ≤ k := by exact_mod_cast hge
      omega
  · constructor
    · intro i hi
      by_cases hik : i = k
      · subst hik
        simp [Int.toNat_natCast, Function.update_same, OscState.activate, hcount]
      · have : ((k : ℤ)).toNat = k := Int.toNat_natCast k
        rw [this]
        simpa [Function.update_noteq hik] using hpart i hi hik
    · exact hmem

theorem partition_applyEv (s : PEState) (ev : PoolEv) (h : Partition s) :
    Partition (applyEv s ev) := by
  cases ev with
  | releaseIdx index => exact partition_releaseOscillator s index h
  | block numSamples numChannels now => exact partition_processBlock s numSamples numChannels now h
  | allocActivate params now =>
      unfold applyEv allocateOscillator
      cases hfl : s.freeList.getLast? with
      | none =>
          dsimp only
          split
          · -- replacement scan hit: free list is empty, activation keeps the partition
            have hempty : s.freeList = [] := List.getLast?_eq_none_iff.mp hfl
            unfold activateOscillator
            split
            · exact h
            · rename_i hguard
              constructor
              · intro i hi
                have hc : s.freeList.count i = 0 := by simp [hempty]
                have hc2 := h.1 i hi
                rw [hc] at hc2
                by_cases hik : i = (findBestOscillatorForReplacement s).toNat
                · subst hik
                  simp [Function.update_same, OscState.activate, hc]
                · simp only [Function.update_noteq hik, hempty, List.count_nil]
                  simpa [hempty] using h.1 i hi
              · exact h.2
          · exact h
      | some k =>
          dsimp only
          have hksn : k < s.n := h.2 k (by
            have := getLast?_eq_some_append hfl
            rw [this]
            exact List.mem_append_right _ (List.mem_singleton.mpr rfl))
          have happ := getLast?_eq_some_append hfl
          have hcnt : s.freeList.count k = s.freeList.dropLast.count k + 1 := by
            conv_lhs => rw [happ]
            simp [List.count_append]
          split
          · -- activation of the popped index
            refine partition_activate_of_mem _ k params _ hksn ?_ ?_ ?_
            · show s.freeList.dropLast.count k = 0
              have hc := h.1 k hksn
              omega
            · intro i hi hik
              have hc := h.1 i hi
              have : s.freeList.count i = s.freeList.dropLast.count i := by
                conv_lhs => rw [happ]
                simp [List.count_append, List.count_eq_zero, hik]
              rw [this] at hc
              exact hc
            · intro j hj
              have : j ∈ s.freeList := by
                rw [happ]
                exact List.mem_append_left _ hj
              exact h.2 j this
          · rename_i hneg
            exfalso
            exact hneg (by positivity)

theorem initState_n (n : ℕ) : (initState n).n = n := rfl

theorem initState_freeList (n : ℕ) : (initState n).freeList = List.range n := rfl

theorem initState_states (n : ℕ) : (initState n).states = fun _ => ({} : OscState) := rfl

theorem partition_initState (n : ℕ) : Partition (initState n) := by
  constructor
  · intro i hi
    rw [initState_n] at hi
    rw [initState_freeList, initState_states]
    simp only [OscState.inUse]
    simp
    exact List.count_eq_one_of_mem (List.nodup_range n) (List.mem_range.mpr hi)
  · intro j hj
    rw [initState_freeList] at hj
    rw [initState_n]
    exact List.mem_range.mp hj

theorem partition_runEvents (evs : List PoolEv) :
    ∀ (s : PEState), Partition s → Partition (runEvents s evs) := by
  induction evs with
  | nil => intro s h; exact h
  | cons ev t ih =>
      intro s h
      exact ih (applyEv s ev) (partition_applyEv s ev h)

/-- C1.  Free-list/in-use partition: starting from the freshly
constructed engine (`initState n`, all indices free), after every
sequence of the pool operations — allocation immediately followed by
activation of the returned index, as `updateOscillatorsIncremental`
pairs them, release of any index, and whole processed blocks including
the per-sample reclaim step — every oscillator index below the pool
size is counted exactly once between the free list and the in-use
flags: never both, never neither. -/
theorem claim_C1_free_list_partition (n : ℕ) (evs : List PoolEv) :
    Partition (runEvents (initState n) evs) :=
  partition_runEvents evs (initState n) (partition_initState n)

/-! ### Allocation policy (`allocateOscillator` / `findBestOscillatorForReplacement`) -/

theorem findBestLoop_of_find?_some (states : ℕ → OscState) :
    ∀ (l : List ℕ) (b : ℤ) (t : ℚ) (k : ℕ),
      l.find? (fun i => decide ((states i).envelopePhase = EnvPhase.release ∨
        (states i).envelopePhase = EnvPhase.inactive)) = some k →
      findBestLoop states l b t = (k : ℤ) := by
  intro l
  induction l with
  | nil => intro b t k h; simp at h
  | cons a rest ih =>
      intro b t k h
      by_cases ha : (states a).envelopePhase = EnvPhase.release ∨
          (states a).envelopePhase = EnvPhase.inactive
      · have hk : k = a := by
          rw [List.find?_cons_of_pos _ (by simpa using ha)] at h
          simpa using h.symm
        subst hk
        simp [findBestLoop, ha]
      · rw [List.find?_cons_of_neg _ (by simpa using ha)] at h
        unfold findBestLoop
        rw [if_neg ha]
        split
        · exact ih _ _ k h
        · exact ih _ _ k h

theorem findBestLoop_no_releasable (states : ℕ → OscState) :
    ∀ (l : List ℕ) (b : ℤ) (t : ℚ),
      (∀ i ∈ l, ¬((states i).envelopePhase = EnvPhase.release ∨
        (states i).envelopePhase = EnvPhase.inactive)) →
      (findBestLoop states l b t = b ∧ ∀ i ∈ l, t ≤ (states i).lastUsedTime) ∨
      (∃ k ∈ l, findBestLoop states l b t = (k : ℤ) ∧ (states k).lastUsedTime < t ∧
        ∀ i ∈ l, (states k).lastUsedTime ≤ (states i).lastUsedTime) := by
  intro l
  induction l with
  | nil => intro b t _; exact Or.inl ⟨rfl, by simp⟩
  | cons a rest ih =>
      intro b t hno
      have ha := hno a (List.mem_cons_self a rest)
      have hrest : ∀ i ∈ rest, ¬((states i).envelopePhase = EnvPhase.release ∨
          (states i).envelopePhase = EnvPhase.inactive) :=
        fun i hi => hno i (List.mem_cons_of_mem a hi)
      unfold findBestLoop
      rw [if_neg ha]
      by_cases hlt : (states a).lastUsedTime < t
      · rw [if_pos hlt]
        rcases ih (a : ℤ) (states a).lastUsedTime hrest with ⟨heq, hall⟩ | ⟨k, hk, heq, hklt, hall⟩
        · right
          refine ⟨a, List.mem_cons_self a rest, heq, hlt, ?_⟩
          intro i hi
          rcases List.mem_cons.mp hi with hi | hi
          · subst hi; exact le_refl _
          · exact hall i hi
        · right
          refine ⟨k, List.mem_cons_of_mem a hk, heq, lt_trans hklt hlt, ?_⟩
          intro i hi
          rcases List.mem_cons.mp hi with hi | hi
          · subst hi; exact le_of_lt hklt
          · exact hall i hi
      · rw [if_neg hlt]
        rcases ih b t hrest with ⟨heq, hall⟩ | ⟨k, hk, heq, hklt, hall⟩
        · left
          refine ⟨heq, ?_⟩
          intro i hi
          rcases List.mem_cons.mp hi with hi | hi
          · subst hi; exact le_of_not_lt hlt
          · exact hall i hi
        · right
          refine ⟨k, List.mem_cons_of_mem a hk, heq, hklt, ?_⟩
          intro i hi
          rcases List.mem_cons.mp hi with hi | hi
          · subst hi
            exact le_trans (le_of_lt hklt) (le_of_not_lt hlt)
          · exact hall i hi

theorem find?_range_least {p : ℕ → Bool} :
    ∀ {n k : ℕ}, (List.range n).find? p = some k →
      p k = true ∧ ∀ j < k, p j = false := by
  intro n
  induction n with
  | zero => intro k h; simp at h
  | succ m ih =>
      intro k h
      rw [List.range_succ, List.find?_append] at h
      cases h1 : (List.range m).find? p with
      | some k2 =>
          rw [h1] at h
          simp only [Option.or_some] at h
          have hk : k2 = k := by
            cases h
            rfl
          subst hk
          exact ih h1
      | none =>
          rw [h1] at h
          simp only [Option.none_or] at h
          have hall := List.find?_eq_none.mp h1
          have h4 : k ∈ [m] := List.mem_of_find?_eq_some h
          have hk : k = m := by simpa using h4
          subst hk
          refine ⟨List.find?_some h, ?_⟩
          intro j hj
          have hjm : j ∈ List.range k := List.mem_range.mpr hj
          simpa using hall j hjm

/-- C4.  Allocation policy of `allocateOscillator`: with a non-empty
free list the most recently freed index (the vector's back) is popped;
with an empty free list the replacement scan returns the lowest index
in Release or Inactive phase when one exists, and otherwise an index of
minimal `lastUsedTime`; and for a non-empty pool whose timestamps are
genuine float values (strictly below `FLT_MAX`) the returned index is
always valid. -/
theorem claim_C4_allocation_policy (s : PEState) (hn : s.n ≠ 0)
    (hmem : ∀ j ∈ s.freeList, j < s.n)
    (hlut : ∀ i < s.n, (s.states i).lastUsedTime < floatMax) :
    (∃ k : ℕ, (allocateOscillator s).1 = (k : ℤ) ∧ k < s.n) ∧
    (∀ k : ℕ, s.freeList.getLast? = some k →
      (allocateOscillator s).1 = (k : ℤ) ∧
        (allocateOscillator s).2.freeList = s.freeList.dropLast) ∧
    (s.freeList = [] →
      ((∃ i < s.n, (s.states i).envelopePhase = EnvPhase.release ∨
          (s.states i).envelopePhase = EnvPhase.inactive) →
        ∃ k < s.n, (allocateOscillator s).1 = (k : ℤ) ∧
          ((s.states k).envelopePhase = EnvPhase.release ∨
            (s.states k).envelopePhase = EnvPhase.inactive) ∧
          ∀ j < k, ¬((s.states j).envelopePhase = EnvPhase.release ∨
            (s.states j).envelopePhase = EnvPhase.inactive)) ∧
      ((∀ i < s.n, ¬((s.states i).envelopePhase = EnvPhase.release ∨
          (s.states i).envelopePhase = EnvPhase.inactive)) →
        ∃ k < s.n, (allocateOscillator s).1 = (k : ℤ) ∧
          ∀ j < s.n, (s.states k).lastUsedTime ≤ (s.states j).lastUsedTime)) := by
  have hrel : s.freeList = [] →
      ((∃ i < s.n, (s.states i).envelopePhase = EnvPhase.release ∨
          (s.states i).envelopePhase = EnvPhase.inactive) →
        ∃ k < s.n, (allocateOscillator s).1 = (k : ℤ) ∧
          ((s.states k).envelopePhase = EnvPhase.release ∨
            (s.states k).envelopePhase = EnvPhase.inactive) ∧
          ∀ j < k, ¬((s.states j).envelopePhase = EnvPhase.release ∨
            (s.states j).envelopePhase = EnvPhase.inactive)) ∧
      ((∀ i < s.n, ¬((s.states i).envelopePhase = EnvPhase.release ∨
          (s.states i).envelopePhase = EnvPhase.inactive)) →
        ∃ k < s.n, (allocateOscillator s).1 = (k : ℤ) ∧
          ∀ j < s.n, (s.states k).lastUsedTime ≤ (s.states j).lastUsedTime) := by
    intro hempty
    have halloc : allocateOscillator s = (findBestOscillatorForReplacement s, s) := by
      unfold allocateOscillator
      rw [hempty]
      rfl
    constructor
    · intro ⟨i, hi, hreli⟩
      have hsome : ((List.range s.n).find? (fun j =>
          decide ((s.states j).envelopePhase = EnvPhase.release ∨
            (s.states j).envelopePhase = EnvPhase.inactive))).isSome := by
        rw [List.find?_isSome]
        exact ⟨i, List.mem_range.mpr hi, by simpa using hreli⟩
      rcases Option.isSome_iff_exists.mp hsome with ⟨k, hk⟩
      have hleast := find?_range_least hk
      have hkmem : k ∈ List.range s.n := List.mem_of_find?_eq_some hk
      refine ⟨k, List.mem_range.mp hkmem, ?_, by simpa using hleast.1, ?_⟩
      · rw [halloc]
        exact findBestLoop_of_find?_some s.states (List.range s.n) (-1) floatMax k hk
      · intro j hj
        have := hleast.2 j hj
        simpa using this
    · intro hnone
      have hnorel : ∀ i ∈ List.range s.n,
          ¬((s.states i).envelopePhase = EnvPhase.release ∨
            (s.states i).envelopePhase = EnvPhase.inactive) :=
        fun i hi => hnone i (List.mem_range.mp hi)
      rcases findBestLoop_no_releasable s.states (List.range s.n) (-1) floatMax hnorel with
        ⟨_, hall⟩ | ⟨k, hk, heq, _, hall⟩
      · exfalso
        have h0 : (0 : ℕ) ∈ List.range s.n := List.mem_range.mpr (Nat.pos_of_ne_zero hn)
        exact absurd (hall 0 h0) (not_le.mpr (hlut 0 (Nat.pos_of_ne_zero hn)))
      · refine ⟨k, List.mem_range.mp hk, ?_, ?_⟩
        · rw [halloc]
          exact heq
        · intro j hj
          exact hall j (List.mem_range.mpr hj)
  refine ⟨?_, ?_, hrel⟩
  · cases hfl : s.freeList.getLast? with
    | some k =>
        have hkmem : k ∈ s.freeList := by
          rw [getLast?_eq_some_append hfl]
          exact List.mem_append_right _ (List.mem_singleton.mpr rfl)
        refine ⟨k, ?_, hmem k hkmem⟩
        unfold allocateOscillator
        rw [hfl]
    | none =>
        have hempty : s.freeList = [] := List.getLast?_eq_none_iff.mp hfl
        by_cases hex : ∃ i < s.n, (s.states i).envelopePhase = EnvPhase.release ∨
            (s.states i).envelopePhase = EnvPhase.inactive
        · rcases (hrel hempty).1 hex with ⟨k, hk, heq, _⟩
          exact ⟨k, heq, hk⟩
        · push_neg at hex
          rcases (hrel hempty).2 (fun i hi h => by
              rcases h with h | h
              · exact (hex i hi).1 h
              · exact (hex i hi).2 h) with ⟨k, hk, heq, _⟩
          exact ⟨k, heq, hk⟩
  · intro k hk
    unfold allocateOscillator
    rw [hk]
    exact ⟨rfl, rfl⟩

set_option maxRecDepth 8000 in
/-- Witness for C4: applying the policy theorem to the freshly built
two-slot pool, whose free list is `[0, 1]`, allocates index 1 (the most
recently pushed). -/
theorem claim_C4_allocation_policy_witness :
    exampleFreshTwoSlot.n ≠ 0 ∧
      (∀ j ∈ exampleFreshTwoSlot.freeList, j < exampleFreshTwoSlot.n) ∧
      (∀ i < exampleFreshTwoSlot.n,
        (exampleFreshTwoSlot.states i).lastUsedTime < floatMax) ∧
      (allocateOscillator exampleFreshTwoSlot).1 = ((1 : ℕ) : ℤ) := by
  have h1 : exampleFreshTwoSlot.n ≠ 0 := by with_unfolding_all decide
  have h2 : ∀ j ∈ exampleFreshTwoSlot.freeList, j < exampleFreshTwoSlot.n := by
    with_unfolding_all decide
  have h3 : ∀ i < exampleFreshTwoSlot.n,
      (exampleFreshTwoSlot.states i).lastUsedTime < floatMax := by
    with_unfolding_all decide
  refine ⟨h1, h2, h3, ?_⟩
  have h4 := (claim_C4_allocation_policy exampleFreshTwoSlot h1 h2 h3).2.1 1
    (by with_unfolding_all decide)
  exact h4.1

/-! ### Reclaim timing (`releaseOscillator` and the per-sample reclaim) -/

/-- C3 counterexample: in the one-slot engine whose voice is in Release
with the decay one step from finishing, the index is absent from the
free list before the block and present after processing that single
block — the reclaim happens inside the very block in which the decay
completes, not on the next processed block. -/
theorem claim_C3_counterexample :
    exampleReleasingState.freeList = [] ∧
      (exampleReleasingState.states 0).envelopePhase = EnvPhase.release ∧
      (exampleReleasingState.states 0).inUse = true ∧
      ((processBlock exampleReleasingState 2 2 7).1).freeList = [0] := by
  refine ⟨?_, ?_, ?_, ?_⟩ <;> with_unfolding_all decide

/-- C3 amended: `releaseOscillator` only moves the envelope to Release —
it never touches the free list or the `inUse` flags; the index is
returned to the free list only by the per-sample reclaim step, which
fires exactly when the envelope phase is Inactive while the slot is
still flagged in use, appends the index and clears the flag — at the
next per-sample iteration after the decay completes, which is within
the same block whenever the decay does not finish on the block's last
sample. -/
theorem claim_C3_amended (s : PEState) (index : ℤ) (sr now : ℚ)
    (panning stereo : Bool) (acc : SampleAcc) (i : ℕ) :
    ((releaseOscillator s index).freeList = s.freeList ∧
      ∀ j : ℕ, ((releaseOscillator s index).states j).inUse = (s.states j).inUse) ∧
    ((slotStep sr now panning stereo acc i).freeList ≠ acc.freeList →
      (acc.states i).envelopePhase = EnvPhase.inactive ∧
        (acc.states i).inUse = true ∧
        (slotStep sr now panning stereo acc i).freeList = acc.freeList ++ [i] ∧
        ((slotStep sr now panning stereo acc i).states i).inUse = false) := by
  constructor
  · constructor
    · unfold releaseOscillator
      split <;> rfl
    · intro j
      unfold releaseOscillator
      split
      · rfl
      · by_cases hj : j = index.toNat
        · subst hj
          simp [Function.update_same, releasePhase_inUse]
        · simp [Function.update_noteq hj]
  · intro hne
    by_cases h1 : (acc.states i).isActive = true
    · exfalso
      apply hne
      simp only [slotStep, h1, if_true]
      by_cases h2 : (panning && stereo) = true <;> simp [h2]
    · by_cases h3 : (acc.states i).envelopePhase = EnvPhase.inactive ∧
          (acc.states i).inUse = true
      · refine ⟨h3.1, h3.2, ?_, ?_⟩ <;>
          simp [slotStep, h1, h3, Function.update_same]
      · exfalso
        apply hne
        simp [slotStep, h1, h3]

/-- Witness for C3: the reclaim clause applied to the one-slot
accumulator whose slot is Inactive but in use — the step pushes index 0
and clears the flag. -/
theorem claim_C3_amended_witness :
    (slotStep 100 7 true true exampleReclaimAcc 0).freeList =
        exampleReclaimAcc.freeList ++ [0] ∧
      ((slotStep 100 7 true true exampleReclaimAcc 0).states 0).inUse = false := by
  have h := (claim_C3_amended exampleReleasingState 0 100 7 true true
    exampleReclaimAcc 0).2 (by with_unfolding_all decide)
  exact ⟨h.2.2.1, h.2.2.2⟩

/-! ### `prepareToPlay` -/

/-- C6 counterexample: in the one-slot engine whose slot was allocated
(free list empty, slot in use), `prepareToPlay` leaves the free list
empty and the slot in use and active — the index is not made available
again and the slot still counts as active, refuting "all pools cleared,
no slot counted as active, every index again available". -/
theorem claim_C6_counterexample :
    exampleAllocatedState.freeList = [] ∧
      (exampleAllocatedState.states 0).inUse = true ∧
      (prepareToPlay exampleAllocatedState 44100 512).freeList = [] ∧
      ((prepareToPlay exampleAllocatedState 44100 512).states 0).inUse = true ∧
      ((prepareToPlay exampleAllocatedState 44100 512).states 0).isActive = true := by
  refine ⟨?_, ?_, ?_, ?_, ?_⟩ <;> with_unfolding_all decide

/-- C6 amended: `prepareToPlay` stores the sample rate and block size,
re-initialises the master-gain smoothing, resets both oscillator pools
to default (silent) oscillators and zeroes the published
active-oscillator count; it is callable repeatedly (a second identical
call is the identity); but it leaves `oscillatorStates` and the free
list untouched, so indices allocated before the call stay unavailable. -/
theorem claim_C6_amended (s : PEState) (sr : ℚ) (spb : ℤ) :
    (∀ b i, (prepareToPlay s sr spb).pools b i = ({} : Oscillator)) ∧
      (prepareToPlay s sr spb).activeOscillators = 0 ∧
      (prepareToPlay s sr spb).masterGain = SmoothedFloat.prepared sr ∧
      (prepareToPlay s sr spb).sampleRate = sr ∧
      (prepareToPlay s sr spb).samplesPerBlock = spb ∧
      (prepareToPlay s sr spb).states = s.states ∧
      (prepareToPlay s sr spb).freeList = s.freeList ∧
      prepareToPlay (prepareToPlay s sr spb) sr spb = prepareToPlay s sr spb := by
  refine ⟨fun b i => rfl, rfl, rfl, rfl, rfl, rfl, rfl, rfl⟩

/-! ### `clearCanvas` -/

theorem clearCanvas_eq (s : PEState) :
    clearCanvas s =
      { s with currentStroke := none, canvasRegions := [],
               pools := Function.update s.pools (!s.frontIndex) (fun _ => {}),
               activeOscillators := 0, swapPending := true } := by
  unfold clearCanvas requestBufferSwap
  split
  · rename_i h
    have h2 : s.swapPending = true := h
    ext <;> simp [h2, Oscillator.resetOsc]
  · ext <;> simp [Oscillator.resetOsc]

/-- C8.  `clearCanvas` is idempotent and swap-mediated: a second
immediate call yields the same state as one call; the result drops the
current stroke and all canvas regions, resets every back-buffer
oscillator to the default silent slot, zeroes the active count and
leaves a buffer-swap request pending; the front (audio-thread) buffer
and the front index are untouched — silencing happens via the back
buffer and the requested swap, never in place. -/
theorem claim_C8_clear_idempotent (s : PEState) :
    clearCanvas (clearCanvas s) = clearCanvas s ∧
      (clearCanvas s).currentStroke = none ∧
      (clearCanvas s).canvasRegions = [] ∧
      (∀ i, getBackBuffer (clearCanvas s) i = ({} : Oscillator)) ∧
      (clearCanvas s).activeOscillators = 0 ∧
      (clearCanvas s).swapPending = true ∧
      (clearCanvas s).frontIndex = s.frontIndex ∧
      getFrontBuffer (clearCanvas s) = getFrontBuffer s := by
  have he := clearCanvas_eq s
  have he2 := clearCanvas_eq (clearCanvas s)
  refine ⟨?_, ?_, ?_, ?_, ?_, ?_, ?_, ?_⟩
  · rw [he2, he]
    ext <;> simp [Function.update_idem]
  · rw [he]
  · rw [he]
  · intro i
    rw [he]
    simp [getBackBuffer, Function.update_same]
  · rw [he]
  · rw [he]
  · rw [he]
  · rw [he]
    simp [getFrontBuffer, Function.update_noteq (Bool.self_ne_not s.frontIndex)]

/-! ### The pan law of the render loop -/

/-- C2.  The render loop does not use the oscillator's own smoothed pan:
for the slot of `examplePannedAcc` — an active voice panned hard right
(`pan = 1`) whose enveloped sample is exactly 1 — the code accumulates
1/2 into each bus (the hard-coded `panValue = 0.5f` of
PaintEngine.cpp line 121, flagged `TODO: Use oscState.targetPan with
smoothing`), whereas the claimed law `left += sample*(1-p)` with the
slot's own pan `p = 1` would contribute 0 to the left bus and 1 to the
right bus. -/
theorem claim_C2_pan_law_bug :
    (examplePannedAcc.pool 0).pan = 1 ∧
      (slotStep 44100 0 true true examplePannedAcc 0).leftSample = 1 / 2 ∧
      (slotStep 44100 0 true true examplePannedAcc 0).rightSample = 1 / 2 ∧
      (1 : ℝ) * (1 - (examplePannedAcc.pool 0).pan) = 0 ∧
      (slotStep 44100 0 true true examplePannedAcc 0).leftSample ≠
        (1 : ℝ) * (1 - (examplePannedAcc.pool 0).pan) := by
  have hsin : Real.sin ((1 / 4 : ℝ) * (2 * Real.pi)) = 1 := by
    rw [show (1 / 4 : ℝ) * (2 * Real.pi) = Real.pi / 2 by ring]
    exact Real.sin_pi_div_two
  have hactive : (examplePannedAcc.states 0).isActive = true := rfl
  have henv : (examplePannedAcc.states 0).updateEnvelope 44100 =
      examplePannedAcc.states 0 := rfl
  have hleft : (slotStep 44100 0 true true examplePannedAcc 0).leftSample = 1 / 2 := by
    simp only [slotStep, hactive, if_true, henv]
    norm_num [examplePannedAcc, Oscillator.smoothParameters, Oscillator.getSample, hsin]
  have hright : (slotStep 44100 0 true true examplePannedAcc 0).rightSample = 1 / 2 := by
    simp only [slotStep, hactive, if_true, henv]
    norm_num [examplePannedAcc, Oscillator.smoothParameters, Oscillator.getSample, hsin]
  have hpan : (examplePannedAcc.pool 0).pan = 1 := rfl
  refine ⟨hpan, hleft, hright, by rw [hpan]; norm_num, ?_⟩
  rw [hleft, hpan]
  norm_num

/-! ### Region keys -/

/-- C10.  `getRegionKey` is not injective on the grid coordinates
reachable from the default canvas: the sign extension of a negative
`regionY` fills the upper 32 bits, so the distinct grid cells
`(-1, -1)` and `(0, -1)` both map to the key `-1` (all bits set), and
`getOrCreateRegion` hands both cells the same map entry: after creating
the region of canvas point `(-5, -5)` (cell `(-1, -1)`), asking for the
region of `(5, -5)` (cell `(0, -1)`) creates no new entry. -/
theorem claim_C10_region_key_collision :
    getRegionKey (-1) (-1) = getRegionKey 0 (-1) ∧
      ((-1 : ℤ), (-1 : ℤ)) ≠ ((0 : ℤ), (-1 : ℤ)) ∧
      getRegionKey (-1) (-1) = -1 ∧
      ((getOrCreateRegion
          ((getOrCreateRegion exampleInfluenceState (-5) (-5)).2)
          5 (-5)).2).canvasRegions.length = 1 := by
  have hf1 : ⌊(-5 : ℝ) / REGION_SIZE⌋ = -1 := by
    rw [REGION_SIZE]
    norm_num [Int.floor_eq_iff]
  have hf2 : ⌊(5 : ℝ) / REGION_SIZE⌋ = 0 := by
    rw [REGION_SIZE]
    norm_num [Int.floor_eq_iff]
  have hkey : getRegionKey (-1) (-1) = getRegionKey 0 (-1) := by
    with_unfolding_all decide
  have hstep1 : (getOrCreateRegion exampleInfluenceState (-5) (-5)).2.canvasRegions =
      [(getRegionKey (-1) (-1), { regionX := -1, regionY := -1 })] := by
    unfold getOrCreateRegion
    rw [hf1]
    rfl
  have hlook : lookupRegion
      ((getOrCreateRegion exampleInfluenceState (-5) (-5)).2).canvasRegions
      (getRegionKey ⌊(5 : ℝ) / REGION_SIZE⌋ ⌊(-5 : ℝ) / REGION_SIZE⌋) =
      some { regionX := -1, regionY := -1 } := by
    rw [hstep1, hf2, hf1, ← hkey]
    simp [lookupRegion]
  refine ⟨hkey, by simp, by with_unfolding_all decide, ?_⟩
  have hsame : ∀ t : PEState,
      lookupRegion t.canvasRegions
          (getRegionKey ⌊(5 : ℝ) / REGION_SIZE⌋ ⌊(-5 : ℝ) / REGION_SIZE⌋) =
        some { regionX := -1, regionY := -1 } →
      (getOrCreateRegion t 5 (-5)).2 = t := by
    intro t ht
    simp only [getOrCreateRegion, ht]
  rw [hsame _ hlook, hstep1]
  simp

/-! ### Coordinate-mapping round trip -/

theorem jlimitR_mem {lo hi : ℝ} (v : ℝ) (h : lo ≤ hi) :
    lo ≤ jlimitR lo hi v ∧ jlimitR lo hi v ≤ hi := by
  unfold jlimitR
  split_ifs <;> constructor <;> linarith

theorem jlimitR_eq_of {lo hi v : ℝ} (h1 : lo ≤ v) (h2 : v ≤ hi) :
    jlimitR lo hi v = v := by
  unfold jlimitR
  split_ifs <;> linarith

/-- C7.  Coordinate-mapping round trip: for any engine state whose
canvas has positive height, any frequency range installed through
`setFrequencyRange`, and any `y` inside the canvas vertical range,
`frequencyToCanvasY (canvasYToFrequency y) = y` exactly (the real-number
semantics of the float code), in logarithmic mode and in linear mode
alike (the state's `useLogFrequencyScale` is arbitrary). -/
theorem claim_C7_round_trip (s : PEState) (minHz maxHz y : ℝ)
    (hbt : s.canvasBottom < s.canvasTop)
    (hy1 : s.canvasBottom ≤ y) (hy2 : y ≤ s.canvasTop) :
    frequencyToCanvasY (setFrequencyRange s minHz maxHz)
      (canvasYToFrequency (setFrequencyRange s minHz maxHz) y) = y := by
  have hmneq : (setFrequencyRange s minHz maxHz).minFrequency = jlimitR 1 20000 minHz := rfl
  have hmxeq : (setFrequencyRange s minHz maxHz).maxFrequency =
      jlimitR (jlimitR 1 20000 minHz + 1) 22000 maxHz := rfl
  have hb : (setFrequencyRange s minHz maxHz).canvasBottom = s.canvasBottom := rfl
  have htp : (setFrequencyRange s minHz maxHz).canvasTop = s.canvasTop := rfl
  have hflag : (setFrequencyRange s minHz maxHz).useLogFrequencyScale =
      s.useLogFrequencyScale := rfl
  have hmn1 : 1 ≤ jlimitR 1 20000 minHz := (jlimitR_mem minHz (by norm_num)).1
  have hmn2 : jlimitR 1 20000 minHz ≤ 20000 := (jlimitR_mem minHz (by norm_num)).2
  have hmnmx : jlimitR 1 20000 minHz + 1 ≤ jlimitR (jlimitR 1 20000 minHz + 1) 22000 maxHz :=
    (jlimitR_mem maxHz (by linarith)).1
  have hmn0 : (0 : ℝ) < jlimitR 1 20000 minHz := by linarith
  have hmx0 : (0 : ℝ) < jlimitR (jlimitR 1 20000 minHz + 1) 22000 maxHz := by linarith
  have hlt : jlimitR 1 20000 minHz < jlimitR (jlimitR 1 20000 minHz + 1) 22000 maxHz := by
    linarith
  have hh : (0 : ℝ) < s.canvasTop - s.canvasBottom := by linarith
  have ht0 : (0 : ℝ) ≤ (y - s.canvasBottom) / (s.canvasTop - s.canvasBottom) :=
    div_nonneg (by linarith) (le_of_lt hh)
  have ht1 : (y - s.canvasBottom) / (s.canvasTop - s.canvasBottom) ≤ 1 :=
    (div_le_one hh).mpr (by linarith)
  have hclamp : jlimitR 0 1 ((y - s.canvasBottom) / (s.canvasTop - s.canvasBottom)) =
      (y - s.canvasBottom) / (s.canvasTop - s.canvasBottom) := jlimitR_eq_of ht0 ht1
  unfold canvasYToFrequency frequencyToCanvasY
  dsimp only
  rw [hmneq, hmxeq, hb, htp, hflag, hclamp]
  set mn := jlimitR 1 20000 minHz with hmndef
  set mx := jlimitR (mn + 1) 22000 maxHz with hmxdef
  set t0 := (y - s.canvasBottom) / (s.canvasTop - s.canvasBottom) with htdef
  by_cases hlog : s.useLogFrequencyScale = true
  · rw [if_pos hlog, if_pos hlog]
    have hLM : Real.log mn < Real.log mx := Real.log_lt_log hmn0 hlt
    have harg1 : Real.log mn ≤ Real.log mn + t0 * (Real.log mx - Real.log mn) := by nlinarith
    have harg2 : Real.log mn + t0 * (Real.log mx - Real.log mn) ≤ Real.log mx := by nlinarith
    have hf1 : mn ≤ Real.exp (Real.log mn + t0 * (Real.log mx - Real.log mn)) := by
      calc mn = Real.exp (Real.log mn) := (Real.exp_log hmn0).symm
        _ ≤ Real.exp (Real.log mn + t0 * (Real.log mx - Real.log mn)) :=
            Real.exp_le_exp.mpr harg1
    have hf2 : Real.exp (Real.log mn + t0 * (Real.log mx - Real.log mn)) ≤ mx := by
      calc Real.exp (Real.log mn + t0 * (Real.log mx - Real.log mn))
            ≤ Real.exp (Real.log mx) := Real.exp_le_exp.mpr harg2
        _ = mx := Real.exp_log hmx0
    rw [jlimitR_eq_of hf1 hf2, Real.log_exp]
    have hML : Real.log mx - Real.log mn ≠ 0 := by linarith
    have hquot : (Real.log mn + t0 * (Real.log mx - Real.log mn) - Real.log mn) /
        (Real.log mx - Real.log mn) = t0 := by
      field_simp
    rw [hquot, htdef]
    have hne : s.canvasTop - s.canvasBottom ≠ 0 := ne_of_gt hh
    field_simp
  · rw [if_neg hlog, if_neg hlog]
    have hf1 : mn ≤ mn + t0 * (mx - mn) := by nlinarith
    have hf2 : mn + t0 * (mx - mn) ≤ mx := by nlinarith
    rw [jlimitR_eq_of hf1 hf2]
    have hd : mx - mn ≠ 0 := by linarith
    have hquot : (mn + t0 * (mx - mn) - mn) / (mx - mn) = t0 := by
      field_simp
    rw [hquot, htdef]
    have hne : s.canvasTop - s.canvasBottom ≠ 0 := ne_of_gt hh
    field_simp

/-- Witness for C7: the round trip applied to the four-slot fresh
engine (canvas [-50, 50], logarithmic scale) after
`setFrequencyRange (20, 20000)`, at `y = 0`. -/
theorem claim_C7_round_trip_witness :
    (initState 4).canvasBottom < (initState 4).canvasTop ∧
      (initState 4).canvasBottom ≤ (0 : ℝ) ∧ (0 : ℝ) ≤ (initState 4).canvasTop ∧
      frequencyToCanvasY (setFrequencyRange (initState 4) 20 20000)
        (canvasYToFrequency (setFrequencyRange (initState 4) 20 20000) 0) = 0 := by
  have h1 : (initState 4).canvasBottom < (initState 4).canvasTop := by
    show (-50 : ℝ) < 50
    norm_num
  have h2 : (initState 4).canvasBottom ≤ (0 : ℝ) := by
    show (-50 : ℝ) ≤ 0
    norm_num
  have h3 : (0 : ℝ) ≤ (initState 4).canvasTop := by
    show (0 : ℝ) ≤ 50
    norm_num
  exact ⟨h1, h2, h3, claim_C7_round_trip (initState 4) 20 20000 0 h1 h2 h3⟩

/-! ### Frequency-range safety -/

/-- C5 counterexample: after `setFrequencyRange (1, 22000)` — values the
setter accepts — the canvas-Y mapping yields 1 Hz at the canvas bottom,
below the claimed lower bound of 20 Hz, and `activateOscillator`
assigns that frequency to the oscillator state without any clamping. -/
theorem claim_C5_counterexample :
    canvasYToFrequency exampleWideRangeState (-50) = 1 ∧
      ¬((20 : ℝ) ≤ canvasYToFrequency exampleWideRangeState (-50)) ∧
      ((activateOscillator exampleWideRangeState 0
          { frequency := canvasYToFrequency exampleWideRangeState (-50),
            amplitude := 1, pan := 1 / 2, time := 0 } 0).states 0).targetFrequency =
        canvasYToFrequency exampleWideRangeState (-50) := by
  have hmn : exampleWideRangeState.minFrequency = 1 := by
    show jlimitR 1 20000 1 = 1
    exact jlimitR_eq_of (by norm_num) (by norm_num)
  have hmx : exampleWideRangeState.maxFrequency = 22000 := by
    show jlimitR (jlimitR 1 20000 1 + 1) 22000 22000 = 22000
    rw [show jlimitR 1 20000 (1 : ℝ) = 1 from jlimitR_eq_of (by norm_num) (by norm_num)]
    exact jlimitR_eq_of (by norm_num) (by norm_num)
  have hb : exampleWideRangeState.canvasBottom = -50 := rfl
  have htp : exampleWideRangeState.canvasTop = 50 := rfl
  have hflag : exampleWideRangeState.useLogFrequencyScale = true := rfl
  have hfreq : canvasYToFrequency exampleWideRangeState (-50) = 1 := by
    unfold canvasYToFrequency
    dsimp only
    rw [hmn, hmx, hb, htp, hflag, if_pos rfl]
    rw [show ((-50 : ℝ) - -50) / (50 - -50) = 0 by norm_num]
    rw [show jlimitR 0 1 (0 : ℝ) = 0 from jlimitR_eq_of (by norm_num) (by norm_num)]
    rw [Real.log_one]
    norm_num [Real.exp_zero]
  refine ⟨hfreq, by rw [hfreq]; norm_num, ?_⟩
  have hn : exampleWideRangeState.n = 1 := rfl
  unfold activateOscillator
  rw [if_neg (show ¬((0 : ℤ) < 0 ∨ (exampleWideRangeState.n : ℤ) ≤ 0) by
    rw [hn]; norm_num)]
  simp [Function.update_same]

/-- C5 amended: the canvas-Y mapping always stays inside the configured
range `[minFrequency, maxFrequency]`, which any `setFrequencyRange`
call pins inside `[1, 22000]` — so frequencies stay in `[20, 20000]`
exactly when the configured range does (in particular under the default
20 Hz..20 kHz range); `activateOscillator` assigns the parameter
frequency unclamped, while `updateOscillatorWithInfluence` either
leaves a slot's target frequency unchanged or clamps the blended value
into `[20, 20000]`; the mapping output is in every case finite and
positive, so phase increments `frequency / sampleRate` are finite. -/
theorem claim_C5_amended (s : PEState) (minHz maxHz y : ℝ) (s2 : PEState)
    (index : ℤ) (pt : StrokePoint) (params : AudioParams) (now : ℚ) (j : ℕ) :
    (1 ≤ (setFrequencyRange s minHz maxHz).minFrequency ∧
      (setFrequencyRange s minHz maxHz).maxFrequency ≤ 22000 ∧
      (setFrequencyRange s minHz maxHz).minFrequency ≤
        canvasYToFrequency (setFrequencyRange s minHz maxHz) y ∧
      canvasYToFrequency (setFrequencyRange s minHz maxHz) y ≤
        (setFrequencyRange s minHz maxHz).maxFrequency) ∧
    (20 ≤ (setFrequencyRange s minHz maxHz).minFrequency →
      (setFrequencyRange s minHz maxHz).maxFrequency ≤ 20000 →
      20 ≤ canvasYToFrequency (setFrequencyRange s minHz maxHz) y ∧
        canvasYToFrequency (setFrequencyRange s minHz maxHz) y ≤ 20000) ∧
    (((updateOscillatorWithInfluence s2 index pt params now).states j).targetFrequency =
        (s2.states j).targetFrequency ∨
      (20 ≤ ((updateOscillatorWithInfluence s2 index pt params now).states j).targetFrequency ∧
        ((updateOscillatorWithInfluence s2 index pt params now).states j).targetFrequency ≤
          20000)) := by
  have hmneq : (setFrequencyRange s minHz maxHz).minFrequency = jlimitR 1 20000 minHz := rfl
  have hmxeq : (setFrequencyRange s minHz maxHz).maxFrequency =
      jlimitR (jlimitR 1 20000 minHz + 1) 22000 maxHz := rfl
  have hmn1 : 1 ≤ jlimitR 1 20000 minHz := (jlimitR_mem minHz (by norm_num)).1
  have hmn2 : jlimitR 1 20000 minHz ≤ 20000 := (jlimitR_mem minHz (by norm_num)).2
  have hmx1 : jlimitR 1 20000 minHz + 1 ≤ jlimitR (jlimitR 1 20000 minHz + 1) 22000 maxHz :=
    (jlimitR_mem maxHz (by linarith)).1
  have hmx2 : jlimitR (jlimitR 1 20000 minHz + 1) 22000 maxHz ≤ 22000 :=
    (jlimitR_mem maxHz (by linarith)).2
  have hmn0 : (0 : ℝ) < jlimitR 1 20000 minHz := by linarith
  have hmx0 : (0 : ℝ) < jlimitR (jlimitR 1 20000 minHz + 1) 22000 maxHz := by linarith
  have hrange : (setFrequencyRange s minHz maxHz).minFrequency ≤
      canvasYToFrequency (setFrequencyRange s minHz maxHz) y ∧
      canvasYToFrequency (setFrequencyRange s minHz maxHz) y ≤
        (setFrequencyRange s minHz maxHz).maxFrequency := by
    unfold canvasYToFrequency
    dsimp only
    rw [hmneq, hmxeq]
    have ht := @jlimitR_mem (0 : ℝ) (1 : ℝ)
      ((y - (setFrequencyRange s minHz maxHz).canvasBottom) /
        ((setFrequencyRange s minHz maxHz).canvasTop -
          (setFrequencyRange s minHz maxHz).canvasBottom)) (by norm_num)
    set t0 := jlimitR 0 1
      ((y - (setFrequencyRange s minHz maxHz).canvasBottom) /
        ((setFrequencyRange s minHz maxHz).canvasTop -
          (setFrequencyRange s minHz maxHz).canvasBottom)) with ht0def
    split
    · constructor
      · calc jlimitR 1 20000 minHz
            = Real.exp (Real.log (jlimitR 1 20000 minHz)) := (Real.exp_log hmn0).symm
          _ ≤ _ := by
              apply Real.exp_le_exp.mpr
              nlinarith [Real.log_le_log hmn0 (by linarith :
                jlimitR 1 20000 minHz ≤ jlimitR (jlimitR 1 20000 minHz + 1) 22000 maxHz)]
      · calc Real.exp (Real.log (jlimitR 1 20000 minHz) + t0 *
              (Real.log (jlimitR (jlimitR 1 20000 minHz + 1) 22000 maxHz) -
                Real.log (jlimitR 1 20000 minHz)))
            ≤ Real.exp (Real.log (jlimitR (jlimitR 1 20000 minHz + 1) 22000 maxHz)) := by
              apply Real.exp_le_exp.mpr
              nlinarith [Real.log_le_log hmn0 (by linarith :
                jlimitR 1 20000 minHz ≤ jlimitR (jlimitR 1 20000 minHz + 1) 22000 maxHz)]
          _ = jlimitR (jlimitR 1 20000 minHz + 1) 22000 maxHz := Real.exp_log hmx0
    · constructor
      · nlinarith
      · nlinarith
  refine ⟨⟨by rw [hmneq]; exact hmn1, by rw [hmxeq]; exact hmx2, hrange⟩, ?_, ?_⟩
  · intro h20 h20000
    exact ⟨le_trans h20 hrange.1, le_trans hrange.2 h20000⟩
  · unfold updateOscillatorWithInfluence
    split
    · exact Or.inl rfl
    · dsimp only
      split
      · exact Or.inl rfl
      · split
        · exact Or.inl rfl
        · by_cases hji : j = index.toNat
          · subst hji
            right
            dsimp only
            rw [Function.update_same]
            exact ⟨(jlimitR_mem _ (by norm_num)).1, (jlimitR_mem _ (by norm_num)).2⟩
          · left
            dsimp only
            rw [Function.update_noteq hji]

set_option maxRecDepth 8000 in
/-- Witness for C5: the default-range clause applied to the fresh
one-slot engine after `setFrequencyRange (20, 20000)` at `y = 0`: the
mapped frequency lies in `[20, 20000]`. -/
theorem claim_C5_amended_witness :
    20 ≤ canvasYToFrequency (setFrequencyRange (initState 1) 20 20000) 0 ∧
      canvasYToFrequency (setFrequencyRange (initState 1) 20 20000) 0 ≤ 20000 := by
  have h20 : (20 : ℝ) ≤ (setFrequencyRange (initState 1) 20 20000).minFrequency := by
    show (20 : ℝ) ≤ jlimitR 1 20000 20
    rw [show jlimitR 1 20000 (20 : ℝ) = 20 from jlimitR_eq_of (by norm_num) (by norm_num)]
  have h20000 : (setFrequencyRange (initState 1) 20 20000).maxFrequency ≤ 20000 := by
    show jlimitR (jlimitR 1 20000 20 + 1) 22000 20000 ≤ 20000
    rw [show jlimitR 1 20000 (20 : ℝ) = 20 from jlimitR_eq_of (by norm_num) (by norm_num)]
    rw [show jlimitR ((20 : ℝ) + 1) 22000 20000 = 20000 from
      jlimitR_eq_of (by norm_num) (by norm_num)]
  exact (claim_C5_amended (initState 1) 20 20000 0 (initState 1) 0
    exampleZeroPressurePoint exampleInfluenceParams 0 0).2.1 h20 h20000

/-! ### Influence blending -/

theorem exp_neg_sixteen_lt : Real.exp (-16 : ℝ) < 1 / 100 := by
  have h4 : (5 : ℝ) ≤ Real.exp 4 := by
    have := Real.add_one_le_exp (4 : ℝ)
    linarith
  have h16 : (625 : ℝ) ≤ Real.exp 16 := by
    have hpow : ((5 : ℝ)) ^ (4 : ℕ) ≤ (Real.exp 4) ^ (4 : ℕ) :=
      pow_le_pow_left₀ (by norm_num) h4 4
    have hmul : Real.exp ((4 : ℕ) * (4 : ℝ)) = (Real.exp 4) ^ (4 : ℕ) :=
      Real.exp_nat_mul 4 4
    have h44 : ((4 : ℕ) : ℝ) * (4 : ℝ) = (16 : ℝ) := by norm_num
    rw [h44] at hmul
    rw [hmul]
    calc (625 : ℝ) = 5 ^ (4 : ℕ) := by norm_num
      _ ≤ (Real.exp 4) ^ (4 : ℕ) := hpow
  have hpos : (0 : ℝ) < Real.exp 16 := Real.exp_pos _
  rw [Real.exp_neg]
  have : (Real.exp 16)⁻¹ ≤ (625 : ℝ)⁻¹ := by
    apply inv_anti₀ (by norm_num) h16
  calc (Real.exp 16)⁻¹ ≤ (625 : ℝ)⁻¹ := this
    _ < 1 / 100 := by norm_num

theorem exampleInfluence_oscY :
    frequencyToCanvasY exampleInfluenceState 20 = -50 := by
  have hmn : exampleInfluenceState.minFrequency = 20 := rfl
  have hmx : exampleInfluenceState.maxFrequency = 20000 := rfl
  have hb : exampleInfluenceState.canvasBottom = -50 := rfl
  have htp : exampleInfluenceState.canvasTop = 50 := rfl
  have hflag : exampleInfluenceState.useLogFrequencyScale = true := rfl
  unfold frequencyToCanvasY
  dsimp only
  rw [hmn, hmx, hb, htp, hflag, if_pos rfl]
  rw [show jlimitR 20 20000 (20 : ℝ) = 20 from jlimitR_eq_of (by norm_num) (by norm_num)]
  rw [sub_self, zero_div]
  norm_num

theorem exampleInfluence_codeDistance :
    calculateDistance exampleInfluenceState 0 exampleInfluencePoint.position = 100 := by
  have hst : (exampleInfluenceState.states 0).targetFrequency = 20 := rfl
  have hx : exampleInfluencePoint.position.x = -100 := rfl
  have hy : exampleInfluencePoint.position.y = -50 := rfl
  unfold calculateDistance
  dsimp only
  rw [hst, exampleInfluence_oscY, hx, hy]
  rw [show ((-100 : ℝ) * -100 + (-50 - -50) * (-50 - -50)) = 100 ^ 2 by norm_num]
  exact Real.sqrt_sq (by norm_num)

/-- C9.  The influence blend weight is not measured from
`(canvasLeft, oscY)`: for the active 20 Hz oscillator of
`exampleInfluenceState` (estimated canvas position `(-100, -50)` under
the claim) and a full-pressure stroke point exactly at `(-100, -50)`,
the code's `calculateDistance` takes `dx = position.x` (as if the
oscillator sat at `x = 0`), giving distance 100 and influence
`exp(-16) < 0.01`, so `updateOscillatorWithInfluence` leaves the state
untouched — whereas the claimed formula gives distance 0, influence 1,
and a target frequency pulled to 20 kHz.  The claim's description
(`specInfluenceUpdate`) is therefore false of the code's result. -/
theorem claim_C9_influence_distance_bug :
    calculateDistance exampleInfluenceState 0 exampleInfluencePoint.position = 100 ∧
      updateOscillatorWithInfluence exampleInfluenceState 0 exampleInfluencePoint
        exampleInfluenceParams 0 = exampleInfluenceState ∧
      ¬ specInfluenceUpdate exampleInfluenceState 0 exampleInfluencePoint
        exampleInfluenceParams
        (updateOscillatorWithInfluence exampleInfluenceState 0 exampleInfluencePoint
          exampleInfluenceParams 0) := by
  have hinfl : calculateInfluence exampleInfluenceState
      (calculateDistance exampleInfluenceState 0 exampleInfluencePoint.position)
      exampleInfluencePoint.pressure = Real.exp (-16 : ℝ) := by
    rw [exampleInfluence_codeDistance]
    show jlimitR 0 1 (exampleInfluencePoint.pressure *
      Real.exp (-((100 / INFLUENCE_RADIUS) * (100 / INFLUENCE_RADIUS)))) = Real.exp (-16)
    rw [show exampleInfluencePoint.pressure = 1 from rfl, INFLUENCE_RADIUS]
    rw [show (100 : ℝ) / 25 = 4 by norm_num]
    rw [show -((4 : ℝ) * 4) = (-16 : ℝ) by norm_num, one_mul]
    exact jlimitR_eq_of (le_of_lt (Real.exp_pos _))
      (by linarith [exp_neg_sixteen_lt])
  have hn : exampleInfluenceState.n = 1 := rfl
  have hactive : (exampleInfluenceState.states (0 : ℤ).toNat).isActive = true := rfl
  have hskip : updateOscillatorWithInfluence exampleInfluenceState 0 exampleInfluencePoint
      exampleInfluenceParams 0 = exampleInfluenceState := by
    unfold updateOscillatorWithInfluence
    rw [if_neg (show ¬((0 : ℤ) < 0 ∨ (exampleInfluenceState.n : ℤ) ≤ 0) by
      rw [hn]; norm_num)]
    dsimp only
    rw [if_neg (show ¬((exampleInfluenceState.states (0 : ℤ).toNat).isActive = false) by
      rw [hactive]; norm_num)]
    rw [if_pos (show calculateInfluence exampleInfluenceState
        (calculateDistance exampleInfluenceState (0 : ℤ).toNat exampleInfluencePoint.position)
        exampleInfluencePoint.pressure < 1 / 100 by
      rw [show ((0 : ℤ).toNat) = 0 from rfl, hinfl]
      exact exp_neg_sixteen_lt)]
  refine ⟨exampleInfluence_codeDistance, hskip, ?_⟩
  rw [hskip]
  unfold specInfluenceUpdate
  dsimp only
  rw [show (exampleInfluenceState.states 0).targetFrequency = 20 from rfl]
  rw [exampleInfluence_oscY]
  rw [show exampleInfluencePoint.position.x - exampleInfluenceState.canvasLeft = 0 by
    rw [show exampleInfluencePoint.position.x = -100 from rfl,
      show exampleInfluenceState.canvasLeft = -100 from rfl]
    norm_num]
  rw [show exampleInfluencePoint.position.y - (-50 : ℝ) = 0 by
    rw [show exampleInfluencePoint.position.y = -50 from rfl]
    norm_num]
  rw [show (0 : ℝ) * 0 + 0 * 0 = 0 by norm_num, Real.sqrt_zero]
  rw [show (0 : ℝ) / INFLUENCE_RADIUS = 0 from zero_div _]
  rw [show -((0 : ℝ) * 0) = 0 by norm_num, Real.exp_zero]
  rw [show exampleInfluencePoint.pressure = 1 from rfl, mul_one]
  rw [if_neg (by norm_num : ¬((1 : ℝ) < 1 / 100))]
  intro h
  have h1 := h.1
  rw [show (20 : ℝ) * (1 - 1) + exampleInfluenceParams.frequency * 1 = 20000 by
    rw [show exampleInfluenceParams.frequency = 20000 from rfl]
    norm_num] at h1
  rw [show jlimitR 20 20000 (20000 : ℝ) = 20000 from
    jlimitR_eq_of (by norm_num) (by norm_num)] at h1
  norm_num at h1

end PaintEngine
